import Mathlib

/-!
# Verification of the TCP connection engine (`src/network/tcpconnection.cc`)

This file gives a shallow embedding of the TCP transport of mosh-tcp:
the `TCPConnection` class of `src/network/tcpconnection.cc` /
`src/network/tcpconnection.h`, together with theorems settling the
spec claims about it.

Modelling conventions:

* Machine integers become `Nat` (with explicit `% 2^w` where the C type
  forces truncation) or `Int` for possibly-negative file descriptors.
  The `double` RTT fields become `ℚ` (the smoothing laws use only
  exact dyadic coefficients, so `ℚ` represents every value the claims
  reason about without floating-point noise).
* Byte strings become `List Nat` (one `Nat` per byte).
* System calls (`read`, `write`, `poll`, `accept`, `connect`) are
  nondeterministic from the program's point of view; their outcomes are
  supplied by explicit oracle values / oracle lists.  A loop whose exit
  depends on syscall outcomes consumes its oracle list structurally and
  reports a `pending` marker when the list is exhausted with the loop
  still running — so "the loop never exits while every outcome fails"
  is expressible.
* C++ exceptions become explicit error results (`ConnErr`); a function
  that can throw returns the error alongside the post-state that the
  throw leaves behind.
* The cipher session is external to this codebase (out of scope per the
  spec); `encrypt`/`decrypt` are passed in as function parameters, with
  decryption returning `Option Packet` (`none` = authentication
  failure).
-/

set_option autoImplicit false

namespace TCP

/-! ## Constants (from `tcpconnection.h`) -/

/-- `DEFAULT_TCP_TIMEOUT = 500` ms. -/
def DEFAULT_TCP_TIMEOUT : Nat := 500

/-- `MIN_TCP_TIMEOUT = 100` ms. -/
def MIN_TCP_TIMEOUT : Nat := 100

/-- `MAX_TCP_TIMEOUT = 1000` ms. -/
def MAX_TCP_TIMEOUT : Nat := 1000

/-- `CONNECT_TIMEOUT = 1000` ms. -/
def CONNECT_TIMEOUT : Nat := 1000

/-- `RECONNECT_DELAY = 100` ms. -/
def RECONNECT_DELAY : Nat := 100

/-- `DEFAULT_TCP_MTU = 8192` bytes. -/
def DEFAULT_TCP_MTU : Nat := 8192

/-- `MAX_MESSAGE_SIZE = 1048576` bytes (1 MiB). -/
def MAX_MESSAGE_SIZE : Nat := 1048576

/-- `uint64_t( -1 )` = `2^64 - 1`. -/
def UINT64_MAX : Nat := 2 ^ 64 - 1

/-- `uint16_t( -1 )` = `65535`, the "no echo" sentinel of the wire format. -/
def UINT16_SENTINEL : Nat := 65535

/-- `sizeof( uint32_t )` — the size of the length prefix of a frame. -/
def LEN_BYTES : Nat := 4

/-! ## Data model -/

/-- `Direction` from `network.h`: which peer role produced a packet. -/
inductive Direction where
  | TO_SERVER : Direction
  | TO_CLIENT : Direction
deriving DecidableEq, Repr

/-- A decrypted `Packet` (see `new_packet` / `recv_one`): direction tag,
sequence number (`uint64_t`, taken from the nonce), 16-bit timestamp,
16-bit timestamp echo, and payload bytes. -/
structure Packet where
  direction : Direction
  seq : Nat
  timestamp : Nat
  timestamp_reply : Nat
  payload : List Nat
deriving DecidableEq, Repr

/-- The mutable state of one `TCPConnection` object — the fields of the
class in `tcpconnection.h` that the verified claims touch.  File
descriptors are `Int` (`-1` = no handle, as in the C++). -/
structure Conn where
  fd : Int
  listen_fd : Int
  server : Bool
  connected : Bool
  has_remote_addr : Bool
  direction : Direction
  saved_timestamp : Nat
  saved_timestamp_received_at : Nat
  expected_receiver_seq : Nat
  RTT_hit : Bool
  SRTT : ℚ
  RTTVAR : ℚ
  last_heard : Nat
  send_error : String
  recv_buffer : List Nat
  tcp_timeout : Nat
deriving DecidableEq, Repr

/-- Errors.  `net m` is a `NetworkException` with message `m`
(`network.h`); `crypto` is the authentication failure thrown by
`Session::decrypt`.  Modelled from the spec: `crypto.h` is not under
`src/`; per the spec the cipher session "fails with
`AuthenticationError` on tamper/corruption", an error class of the
cipher layer distinct from the network error taxonomy, so it is *not*
caught by `catch ( const NetworkException& e )`. -/
inductive ConnErr where
  | net : String → ConnErr
  | crypto : ConnErr
deriving DecidableEq, Repr

/-! ## Reconnection (`TCPConnection::reconnect`, lines 443–481) -/

/-- Outcome of one `connect_with_timeout` call, supplied by the
environment: either the connect succeeds and yields a fresh stream
descriptor, or it throws a `NetworkException`.  (`setup()` only issues
`setsockopt` calls whose failures are logged, never thrown, so a
successful connect never throws afterwards.) -/
inductive ConnAttempt where
  | ok : Int → ConnAttempt
  | fail : String → ConnAttempt
deriving DecidableEq, Repr

/-- Whether a `ConnAttempt` is a success. -/
def ConnAttempt.isOk : ConnAttempt → Bool
  | .ok _ => true
  | .fail _ => false

/-- `connect_with_timeout` (lines 281–353), at the granularity of its
outcome: on success the socket is created, connected and set up
(`fd := newFd`, `connected := true`); on any failure every path closes
the partially opened socket and leaves `fd = -1` before throwing. -/
def connect_with_timeout (a : ConnAttempt) (c : Conn) : Except String Unit × Conn :=
  match a with
  | .ok newFd => (.ok (), { c with fd := newFd, connected := true })
  | .fail m => (.error m, { c with fd := -1 })

/-- The backoff delay slept after the `n`-th failed reconnect attempt
(`n = 1, 2, ...`), exactly as computed at lines 474–477:
`delay = RECONNECT_DELAY * ( 1 << ( attempt < 5 ? attempt : 5 ) )`,
then clamped to `5000`. -/
def reconnect_delay (n : Nat) : Nat :=
  let d := RECONNECT_DELAY * 2 ^ (if n < 5 then n else 5)
  if d > 5000 then 5000 else d

/-- `close_connection` (lines 851–859): shut down and close the active
stream handle if any, record it as closed, clear `connected`. -/
def close_connection (c : Conn) : Conn × List Int :=
  if 0 ≤ c.fd then ({ c with fd := -1, connected := false }, [c.fd])
  else ({ c with connected := false }, [])

/-- Result of running (a finite prefix of) the reconnect retry loop. -/
structure LoopResult where
  conn : Conn
  sleeps : List Nat
  done : Bool
deriving DecidableEq, Repr

/-- The `while ( !connected )` retry loop of `reconnect` (lines
457–480).  `attempt` is the *local* counter of the C++ function;
`attempts` is the oracle of `connect_with_timeout` outcomes, consumed
one per iteration.  Each iteration either connects (clears the receive
buffer and returns) or sleeps `reconnect_delay` and retries; if the
oracle runs out with the loop still running, `done := false`. -/
def reconnect_go : List ConnAttempt → Nat → Conn → LoopResult
  | [], _, c => ⟨c, [], c.connected⟩
  | a :: rest, attempt, c =>
    if c.connected then ⟨c, [], true⟩
    else
      match connect_with_timeout a c with
      | (.ok _, c1) => ⟨{ c1 with recv_buffer := [] }, [], true⟩
      | (.error _, c1) =>
        let n := attempt + 1
        let r := reconnect_go rest n c1
        ⟨r.conn, reconnect_delay n :: r.sleeps, r.done⟩

/-- Result of a whole `reconnect` call: final state, the backoff sleeps
performed inside the call (in order), the descriptors closed, and
whether the call returned (`done = false` means the retry loop was
still running when the outcome oracle ran out — the call has not
returned to its caller). -/
structure ReconnectResult where
  conn : Conn
  sleeps : List Nat
  closed : List Int
  done : Bool
deriving DecidableEq, Repr

/-- `TCPConnection::reconnect` (lines 443–481): the server returns at
once; the client closes the current connection, then runs the retry
loop with a *fresh* local `attempt` counter (`attempt = 0`), retrying
`connect_with_timeout` forever with exponential backoff until an
attempt succeeds, and clears the receive buffer on success. -/
def reconnect (attempts : List ConnAttempt) (c : Conn) : ReconnectResult :=
  if c.server then ⟨c, [], [], true⟩
  else
    let c1 := (close_connection c).1
    let r := reconnect_go attempts 0 c1
    ⟨r.conn, r.sleeps, (close_connection c).2, r.done⟩

/-! ## RTT estimation (`TCPConnection::update_rtt`, lines 579–604) -/

/-- Modelled from the spec: `timestamp_diff` lives in `network.h` /
`network.cc`, which are not under `src/`.  The spec (§4.2) says the
round-trip measurement is a wraparound difference of 16-bit timestamps
that can come out *negative* ("reply timestamp older than the request
due to wraparound math"), and that negative measurements are ignored;
we model it as the signed difference of the two timestamp values. -/
def timestamp_diff (tsnew tsold : Nat) : ℚ :=
  (tsnew : ℚ) - (tsold : ℚ)

/-- The core smoothing step of `update_rtt` with the measurement `R`
already computed (lines 589–603): negative `R` is ignored; the first
sample sets `SRTT := R`, `RTTVAR := R / 2`; later samples apply the
RFC 6298 exponential smoothing with `alpha = 1/8`, `beta = 1/4`,
updating `RTTVAR` from the *old* `SRTT` first. -/
def rtt_update (R : ℚ) (c : Conn) : Conn :=
  if R < 0 then c
  else if ¬c.RTT_hit then { c with RTT_hit := true, SRTT := R, RTTVAR := R / 2 }
  else
    { c with
      RTTVAR := (1 - 1 / 4) * c.RTTVAR + (1 / 4) * |c.SRTT - R|,
      SRTT := (1 - 1 / 8) * c.SRTT + (1 / 8) * R }

/-- `TCPConnection::update_rtt` (lines 579–604): the sentinel echo
`uint16_t( -1 )` and the sentinel `saved_timestamp_received_at ==
uint64_t( -1 )` are ignored; otherwise the measurement
`R = timestamp_diff( timestamp16(), timestamp_reply )` feeds the
smoothing step.  `now16` is the value of `timestamp16()`. -/
def update_rtt (now16 : Nat) (timestamp_reply : Nat) (c : Conn) : Conn :=
  if timestamp_reply = UINT16_SENTINEL ∨ c.saved_timestamp_received_at = UINT64_MAX then c
  else rtt_update (timestamp_diff now16 timestamp_reply) c

/-! ## Packet construction (`TCPConnection::new_packet`, lines 565–577) -/

/-- `TCPConnection::new_packet` (lines 565–577):
`outgoing_timestamp_reply` starts as the sentinel `uint16_t( -1 )` and
is overwritten with `saved_timestamp` whenever
`expected_receiver_seq != uint64_t( -1 )`.  `now16` is `timestamp16()`.
(The sequence number is assigned later, inside encryption, from the
nonce; it is irrelevant to the packet header fields modelled here.) -/
def new_packet (now16 : Nat) (s_payload : List Nat) (c : Conn) : Packet :=
  let outgoing_timestamp_reply : Nat :=
    if c.expected_receiver_seq ≠ UINT64_MAX then c.saved_timestamp % 65536
    else UINT16_SENTINEL
  { direction := c.direction
    seq := 0
    timestamp := now16 % 65536
    timestamp_reply := outgoing_timestamp_reply
    payload := s_payload }

/-! ## Frame parsing (`TCPConnection::recv_one`, lines 656–742) -/

/-- `ntohl` of the first four buffered bytes (lines 668–671): the
length prefix is big-endian. -/
def be32 : List Nat → Nat
  | b0 :: b1 :: b2 :: b3 :: _ => ((b0 * 256 + b1) * 256 + b2) * 256 + b3
  | _ => 0

/-- The four big-endian bytes of a `uint32_t` length, as written by
`htonl` on the sending side. -/
def be32_of (n : Nat) : List Nat :=
  [n / 16777216 % 256, n / 65536 % 256, n / 256 % 256, n % 256]

/-- What one `read`-into-the-buffer step of the `recv_one` loop (lines
706–740) observes, as supplied by the environment:
* `data chunk` — `read` returned `chunk` (at most 4096 bytes; an empty
  chunk is the `n == 0` end-of-stream case);
* `closed` — `read` returned `0`;
* `eintr` — `read` failed with `EINTR` (loop continues);
* `wouldblockReady` — `read` failed with `EAGAIN`/`EWOULDBLOCK` and the
  subsequent `poll` reported data (loop continues);
* `wouldblockTimeout` — `EAGAIN` and `poll` timed out (return empty);
* `wouldblockPollEintr` — `EAGAIN` and `poll` failed with `EINTR`
  (loop continues);
* `wouldblockPollErr` — `EAGAIN` and `poll` failed fatally (throw);
* `readErr` — `read` failed with another errno (throw). -/
inductive ReadEvent where
  | data : List Nat → ReadEvent
  | closed : ReadEvent
  | eintr : ReadEvent
  | wouldblockReady : ReadEvent
  | wouldblockTimeout : ReadEvent
  | wouldblockPollEintr : ReadEvent
  | wouldblockPollErr : ReadEvent
  | readErr : ReadEvent
deriving DecidableEq, Repr

/-- Result of one `recv_one` call. -/
inductive RecvOut where
  | msg : List Nat → RecvOut
  | empty : RecvOut
  | exn : ConnErr → RecvOut
  | pending : RecvOut
deriving DecidableEq, Repr

/-- The frame-extraction step at the top of the `recv_one` loop (lines
666–704): with at least four buffered bytes, parse the big-endian
length; reject it (`"received message too large"`) if it exceeds
`MAX_MESSAGE_SIZE` *before* anything is sized from it; if the whole
frame is buffered, split it off the front of the buffer, decrypt
(authentication failure throws with the frame already consumed), then
update the RTT estimate, record the peer's timestamp and sequence
number for later echoing, update `last_heard`, and return the payload.
`none` means no complete frame is buffered yet. -/
def parse_step (dec : List Nat → Option Packet) (now now16 : Nat) (c : Conn) :
    Option (RecvOut × Conn) :=
  if LEN_BYTES ≤ c.recv_buffer.length then
    let len := be32 c.recv_buffer
    if len > MAX_MESSAGE_SIZE then
      some (.exn (.net "received message too large"), c)
    else if LEN_BYTES + len ≤ c.recv_buffer.length then
      let encrypted := (c.recv_buffer.drop LEN_BYTES).take len
      let c1 := { c with recv_buffer := c.recv_buffer.drop (LEN_BYTES + len) }
      match dec encrypted with
      | none => some (.exn .crypto, c1)
      | some p =>
        let c2 := update_rtt now16 p.timestamp_reply c1
        let c3 :=
          { c2 with
            saved_timestamp := p.timestamp % 65536
            saved_timestamp_received_at := now
            expected_receiver_seq := p.seq
            last_heard := now }
        some (.msg p.payload, c3)
    else none
  else none

/-- The `while ( true )` loop of `recv_one` (lines 665–741): try to
extract a frame from the buffer; otherwise consume the next read
outcome.  A received chunk is appended only after the buffer-overflow
guard `recv_buffer.size() + n > MAX_MESSAGE_SIZE + sizeof( uint32_t )`
(lines 711–714) passes; tripping the guard throws without appending. -/
def recv_one_go (dec : List Nat → Option Packet) (now now16 : Nat) :
    List ReadEvent → Conn → RecvOut × Conn
  | [], c =>
    match parse_step dec now now16 c with
    | some r => r
    | none => (.pending, c)
  | e :: rest, c =>
    match parse_step dec now now16 c with
    | some r => r
    | none =>
      match e with
      | .data chunk =>
        if chunk.length = 0 then (.exn (.net "read: connection closed"), c)
        else if c.recv_buffer.length + chunk.length > MAX_MESSAGE_SIZE + LEN_BYTES then
          (.exn (.net "receive buffer overflow - incomplete message too large"), c)
        else recv_one_go dec now now16 rest { c with recv_buffer := c.recv_buffer ++ chunk }
      | .closed => (.exn (.net "read: connection closed"), c)
      | .eintr => recv_one_go dec now now16 rest c
      | .wouldblockReady => recv_one_go dec now now16 rest c
      | .wouldblockTimeout => (.empty, c)
      | .wouldblockPollEintr => recv_one_go dec now now16 rest c
      | .wouldblockPollErr => (.exn (.net "poll"), c)
      | .readErr => (.exn (.net "read"), c)

/-- `TCPConnection::recv_one` (lines 656–742): a negative descriptor is
rejected up front (`EBADF`), then the read-and-parse loop runs. -/
def recv_one (dec : List Nat → Option Packet) (now now16 : Nat)
    (events : List ReadEvent) (c : Conn) : RecvOut × Conn :=
  if c.fd < 0 then (.exn (.net "invalid file descriptor"), c)
  else recv_one_go dec now now16 events c

/-! ## Accepting a peer (`TCPConnection::accept_connection`, lines 218–278) -/

/-- Outcome of the poll-then-accept sequence in `accept_connection`,
supplied by the environment:
* `pollEintr` — `poll` failed with `EINTR` ("Try again", return);
* `pollFail` — `poll` failed fatally (throw);
* `timeout` — `poll` returned `0`, no pending client (return);
* `acceptEagain` — `accept` failed with `EAGAIN`/`EWOULDBLOCK`
  (return);
* `acceptFail` — `accept` failed fatally (throw);
* `acceptOk newFd` — a peer was accepted on descriptor `newFd`. -/
inductive AcceptOutcome where
  | pollEintr : AcceptOutcome
  | pollFail : AcceptOutcome
  | timeout : AcceptOutcome
  | acceptEagain : AcceptOutcome
  | acceptFail : AcceptOutcome
  | acceptOk : Int → AcceptOutcome
deriving DecidableEq, Repr

/-- `TCPConnection::accept_connection` (lines 218–278).  On accept the
connection is marked up and the listening descriptor is closed at once
(`listen_fd := -1`, lines 252–254) — a single peer per listener.
`setup()` (lines 355–441) only makes `setsockopt` calls whose failures
are logged and swallowed, so the post-accept setup never throws and its
cleanup `catch` is unreachable.  A `pollfd` entry with a negative
descriptor is ignored by `poll(2)` — its `revents` is zero — so once
the listening socket is closed the poll can only time out. -/
def accept_connection (oc : AcceptOutcome) (c : Conn) : Except ConnErr Unit × Conn :=
  let eff := if c.listen_fd < 0 then AcceptOutcome.timeout else oc
  match eff with
  | .pollEintr => (.ok (), c)
  | .pollFail => (.error (.net "poll"), c)
  | .timeout => (.ok (), c)
  | .acceptEagain => (.ok (), c)
  | .acceptFail => (.error (.net "accept"), c)
  | .acceptOk newFd =>
    (.ok (),
      { c with fd := newFd, connected := true, has_remote_addr := true, listen_fd := -1 })

/-! ## `TCPConnection::recv` (lines 744–776) -/

/-- The `try { return recv_one(); } catch ( NetworkException )` body of
`recv` (lines 760–775): a `NetworkException` makes the client run
`reconnect` and return empty, and makes the server mark itself
disconnected and rethrow.  The cipher layer's authentication failure is
not a `NetworkException`, so it propagates past the `catch` with no
state transition. -/
def recv_body (dec : List Nat → Option Packet) (now now16 : Nat)
    (events : List ReadEvent) (attempts : List ConnAttempt) (c : Conn) :
    RecvOut × Conn :=
  match recv_one dec now now16 events c with
  | (.exn (.net m), c') =>
    if ¬c'.server then
      let r := reconnect attempts c'
      if r.done then (.empty, r.conn) else (.pending, r.conn)
    else (.exn (.net m), { c' with connected := false })
  | (.exn .crypto, c') => (.exn .crypto, c')
  | r => r

/-- `TCPConnection::recv` (lines 744–776): an unconnected server makes
one bounded accept attempt and returns empty if still unconnected
(exceptions from the accept path propagate directly); an unconnected
client returns empty; otherwise `recv_one` runs under the catch
described at `recv_body`. -/
def recv (dec : List Nat → Option Packet) (now now16 : Nat) (acc : AcceptOutcome)
    (events : List ReadEvent) (attempts : List ConnAttempt) (c : Conn) :
    RecvOut × Conn :=
  if c.server ∧ ¬c.connected then
    match accept_connection acc c with
    | (.error e, c') => (.exn e, c')
    | (.ok _, c') =>
      if ¬c'.connected then (.empty, c')
      else recv_body dec now now16 events attempts c'
  else if ¬c.connected then (.empty, c)
  else recv_body dec now now16 events attempts c

/-! ## `TCPConnection::send` (lines 606–654) -/

/-- Outcome of one `write_fully` call (lines 524–563), at the
granularity of the claims: the internal `EINTR`/`EAGAIN` poll-retry
loop either eventually writes all requested bytes or throws a
`NetworkException` (write error, poll error, or write timeout). -/
inductive WriteRes where
  | ok : WriteRes
  | fail : String → WriteRes
deriving DecidableEq, Repr

/-- Result of one `send` call. -/
inductive SendOut where
  | ok : SendOut
  | silent : SendOut
  | exn : ConnErr → SendOut
  | pending : SendOut
deriving DecidableEq, Repr

/-- Result record of `send`: outcome, post-state, how many `write`
calls to the socket were issued (`write_fully` invocations), and the
descriptors closed during the call. -/
structure SendResult where
  out : SendOut
  conn : Conn
  writeCalls : Nat
  closed : List Int
deriving DecidableEq, Repr

/-- The `catch ( const NetworkException& e )` handler of `send` (lines
645–653): record the error text in `send_error`; a client then runs
`reconnect` before the exception propagates; a server just rethrows. -/
def send_catch (m : String) (attemptsCatch : List ConnAttempt)
    (wc : Nat) (closed0 : List Int) (c : Conn) : SendResult :=
  let c1 := { c with send_error := m }
  if ¬c1.server then
    let r := reconnect attemptsCatch c1
    if r.done then ⟨.exn (.net m), r.conn, wc, closed0 ++ r.closed⟩
    else ⟨.pending, r.conn, wc, closed0 ++ r.closed⟩
  else ⟨.exn (.net m), c1, wc, closed0⟩

/-- The `try` body of `send` (lines 620–644): build the packet,
encrypt, reject with `"message too large"` *before* the size is
converted to the `uint32_t` length prefix — and hence before either
`write_fully` call — if the ciphertext exceeds `MAX_MESSAGE_SIZE`;
otherwise write the length prefix, then the ciphertext, and clear
`send_error` on success.  `w1`/`w2` are the outcomes of the two
`write_fully` calls. -/
def send_try (encryptFn : Packet → List Nat) (now16 : Nat) (w1 w2 : WriteRes)
    (attemptsCatch : List ConnAttempt) (s : List Nat) (closed0 : List Int)
    (c : Conn) : SendResult :=
  let p := new_packet now16 s c
  let encrypted := encryptFn p
  if encrypted.length > MAX_MESSAGE_SIZE then
    send_catch "message too large" attemptsCatch 0 closed0 c
  else
    match w1 with
    | .fail m => send_catch m attemptsCatch 1 closed0 c
    | .ok =>
      match w2 with
      | .fail m => send_catch m attemptsCatch 2 closed0 c
      | .ok => ⟨.ok, { c with send_error := "" }, 2, closed0⟩

/-- `TCPConnection::send` (lines 606–654): an unconnected server stores
`"Not connected"` and returns without throwing; an unconnected client
first runs `reconnect` (oracle `attemptsPre`); then the `try` body runs
with the catch handler of `send_catch` (its reconnect drawing from
`attemptsCatch`). -/
def send (encryptFn : Packet → List Nat) (now16 : Nat) (w1 w2 : WriteRes)
    (attemptsPre attemptsCatch : List ConnAttempt) (s : List Nat) (c : Conn) :
    SendResult :=
  if ¬c.connected then
    if c.server then ⟨.silent, { c with send_error := "Not connected" }, 0, []⟩
    else
      let r := reconnect attemptsPre c
      if ¬r.done then ⟨.pending, r.conn, 0, r.closed⟩
      else send_try encryptFn now16 w1 w2 attemptsCatch s r.closed r.conn
  else send_try encryptFn now16 w1 w2 attemptsCatch s [] c

/-! ## Descriptor reporting and constructor states -/

/-- `TCPConnection::fds` (lines 778–788): the listening descriptor
while a listener awaits its peer, else the stream descriptor if any. -/
def fds (c : Conn) : List Int :=
  if c.server ∧ ¬c.connected ∧ 0 ≤ c.listen_fd then [c.listen_fd]
  else if 0 ≤ c.fd then [c.fd] else []

/-- The server constructor (lines 49–81) after a successful
`bind_and_listen` yielded listening descriptor `lfd`; `t` is the
`timestamp()` stored into `last_heard`. -/
def server_init (lfd : Int) (t : Nat) : Conn :=
  { fd := -1, listen_fd := lfd, server := true, connected := false
    has_remote_addr := false, direction := .TO_CLIENT
    saved_timestamp := 0, saved_timestamp_received_at := 0, expected_receiver_seq := 0
    RTT_hit := false, SRTT := 1000, RTTVAR := 500
    last_heard := t, send_error := "", recv_buffer := [], tcp_timeout := DEFAULT_TCP_TIMEOUT }

/-- The client constructor (lines 84–134) after a successful
`connect_with_timeout` yielded stream descriptor `fd0`; `t` is the
`timestamp()` stored into `last_heard`.  Note the initializer list
(lines 99–101) sets `saved_timestamp`, `saved_timestamp_received_at`
and `expected_receiver_seq` to `0`. -/
def client_init (fd0 : Int) (t : Nat) : Conn :=
  { fd := fd0, listen_fd := -1, server := false, connected := true
    has_remote_addr := true, direction := .TO_SERVER
    saved_timestamp := 0, saved_timestamp_received_at := 0, expected_receiver_seq := 0
    RTT_hit := false, SRTT := 1000, RTTVAR := 500
    last_heard := t, send_error := "", recv_buffer := [], tcp_timeout := DEFAULT_TCP_TIMEOUT }

/-! ## Helper lemmas: the reconnect loop -/

theorem close_connection_connected (c : Conn) : (close_connection c).1.connected = false := by
  unfold close_connection
  split <;> rfl

theorem close_connection_server (c : Conn) : (close_connection c).1.server = c.server := by
  unfold close_connection
  split <;> rfl

theorem close_connection_listen_fd (c : Conn) :
    (close_connection c).1.listen_fd = c.listen_fd := by
  unfold close_connection
  split <;> rfl

theorem close_connection_recv_buffer (c : Conn) :
    (close_connection c).1.recv_buffer = c.recv_buffer := by
  unfold close_connection
  split <;> rfl

theorem close_connection_closed (c : Conn) (h : 0 ≤ c.fd) :
    (close_connection c).2 = [c.fd] := by
  unfold close_connection
  rw [if_pos h]

/-- Unfolding equation: the retry loop on an exhausted oracle. -/
theorem reconnect_go_nil (a : Nat) (c : Conn) :
    reconnect_go [] a c = ⟨c, [], c.connected⟩ := rfl

/-- Unfolding equation: a successful connect attempt exits the loop,
installing the fresh descriptor and clearing the receive buffer. -/
theorem reconnect_go_cons_ok (f : Int) (rest : List ConnAttempt) (a : Nat) (c : Conn)
    (hc : c.connected = false) :
    reconnect_go (ConnAttempt.ok f :: rest) a c
      = ⟨{ c with fd := f, connected := true, recv_buffer := [] }, [], true⟩ := by
  simp only [reconnect_go, connect_with_timeout]
  rw [if_neg (by simp [hc])]

/-- Unfolding equation: a failed connect attempt sleeps the backoff
delay of the incremented local counter and loops. -/
theorem reconnect_go_cons_fail (m : String) (rest : List ConnAttempt) (a : Nat) (c : Conn)
    (hc : c.connected = false) :
    reconnect_go (ConnAttempt.fail m :: rest) a c
      = ⟨(reconnect_go rest (a + 1) { c with fd := -1 }).conn,
         reconnect_delay (a + 1) :: (reconnect_go rest (a + 1) { c with fd := -1 }).sleeps,
         (reconnect_go rest (a + 1) { c with fd := -1 }).done⟩ := by
  simp only [reconnect_go, connect_with_timeout]
  rw [if_neg (by simp [hc])]

/-- If the retry loop of `reconnect` is entered disconnected and
returns, then some connect attempt succeeded, the state is connected,
and the receive buffer was cleared on the way out. -/
theorem reconnect_go_done (attempts : List ConnAttempt) (a : Nat) (c : Conn)
    (hc : c.connected = false) (hd : (reconnect_go attempts a c).done = true) :
    (reconnect_go attempts a c).conn.recv_buffer = [] ∧
    (reconnect_go attempts a c).conn.connected = true := by
  induction attempts generalizing a c with
  | nil => rw [reconnect_go_nil] at hd; rw [hc] at hd; cases hd
  | cons x rest ih =>
    cases x with
    | ok f => rw [reconnect_go_cons_ok f rest a c hc]; exact ⟨rfl, rfl⟩
    | fail m =>
      rw [reconnect_go_cons_fail m rest a c hc] at hd ⊢
      exact ih (a + 1) { c with fd := -1 } hc hd

/-- If every connect attempt supplied so far has failed, the retry loop
is still running: `reconnect` has not returned to its caller, and it
has already slept once per failed attempt. -/
theorem reconnect_go_all_fail (k : Nat) (m : String) (a : Nat) (c : Conn)
    (hc : c.connected = false) :
    (reconnect_go (List.replicate k (ConnAttempt.fail m)) a c).done = false ∧
    (reconnect_go (List.replicate k (ConnAttempt.fail m)) a c).sleeps.length = k := by
  induction k generalizing a c with
  | zero => rw [List.replicate_zero, reconnect_go_nil]; exact ⟨hc, rfl⟩
  | succ n ih =>
    rw [List.replicate_succ, reconnect_go_cons_fail m _ a c hc]
    have h := ih (a + 1) { c with fd := -1 } hc
    exact ⟨h.1, by simpa using h.2⟩

/-- A loop run that fails `k` times and then connects sleeps exactly
the delays `reconnect_delay (a+1), …, reconnect_delay (a+k)`, where `a`
is the value of the local `attempt` counter at entry. -/
theorem reconnect_go_sleeps (k : Nat) (m : String) (f : Int) (a : Nat) (c : Conn)
    (hc : c.connected = false) :
    (reconnect_go (List.replicate k (ConnAttempt.fail m) ++ [ConnAttempt.ok f]) a c).sleeps
      = (List.range k).map (fun i => reconnect_delay (a + i + 1)) := by
  induction k generalizing a c with
  | zero => rw [List.replicate_zero, List.nil_append, reconnect_go_cons_ok f [] a c hc]; rfl
  | succ n ih =>
    rw [List.replicate_succ, List.cons_append, reconnect_go_cons_fail m _ a c hc]
    show reconnect_delay (a + 1) :: _ = _
    rw [ih (a + 1) { c with fd := -1 } hc]
    rw [List.range_succ_eq_map, List.map_cons, List.map_map]
    refine congrArg₂ List.cons ?_ ?_
    · show reconnect_delay (a + 1) = reconnect_delay (a + 0 + 1)
      norm_num
    · refine List.map_congr_left fun i _ => ?_
      show reconnect_delay (a + 1 + i + 1) = reconnect_delay (a + (i + 1) + 1)
      congr 1
      omega

/-- If some supplied connect attempt succeeds, the retry loop returns. -/
theorem reconnect_go_some_ok (attempts : List ConnAttempt) (a : Nat) (c : Conn)
    (hok : attempts.any ConnAttempt.isOk = true) :
    (reconnect_go attempts a c).done = true := by
  induction attempts generalizing a c with
  | nil => simp at hok
  | cons x rest ih =>
    by_cases hc : c.connected = true
    · cases x <;>
        · simp only [reconnect_go]
          rw [if_pos hc]
    · rw [Bool.not_eq_true] at hc
      cases x with
      | ok f => rw [reconnect_go_cons_ok _ rest a c hc]
      | fail m =>
        simp only [List.any_cons, ConnAttempt.isOk, Bool.false_or] at hok
        rw [reconnect_go_cons_fail m rest a c hc]
        exact ih (a + 1) { c with fd := -1 } hok

/-- The exact backoff law of `reconnect_delay`: `100 · 2^min(n,5)`. -/
theorem reconnect_delay_eq (n : Nat) : reconnect_delay n = 100 * 2 ^ min n 5 := by
  by_cases h : n < 5
  · interval_cases n <;> decide
  · have h5 : min n 5 = 5 := Nat.min_eq_right (by omega)
    unfold reconnect_delay RECONNECT_DELAY
    rw [if_neg h, h5]
    decide

/-- For a client, `reconnect` is `close_connection` followed by the
retry loop started with a fresh local `attempt = 0` counter. -/
theorem reconnect_client (attempts : List ConnAttempt) (c : Conn) (hs : c.server = false) :
    reconnect attempts c
      = ⟨(reconnect_go attempts 0 (close_connection c).1).conn,
         (reconnect_go attempts 0 (close_connection c).1).sleeps,
         (close_connection c).2,
         (reconnect_go attempts 0 (close_connection c).1).done⟩ := by
  unfold reconnect
  rw [if_neg (by simp [hs])]

/-! ## Claim C1 — non-blocking reconnection at the call boundary -/

/-- **C1** (code bug): the reconnection retry loop of
`TCPConnection::reconnect` runs *inside* one call.  Evaluating the code
at the failing input — an initiator whose peer stays unreachable — a
single `reconnect` invocation (triggered from one `send`/`recv`) that
sees ten failed connect outcomes before a success has already slept
22 200 ms of backoff in that one call, far beyond one bounded
connect attempt (`CONNECT_TIMEOUT` = 1000 ms); and while every attempt
fails the call never returns to the caller at all.  The local `attempt`
counter also means no backoff state persists across calls.  This
contradicts the claim and the repository's own
`test-nonblocking-reconnect.cc`, which requires ten disconnected
`send`/`recv` calls to complete within 2000 ms. -/
theorem C1_reconnect_blocks_caller :
    (reconnect (List.replicate 10 (ConnAttempt.fail "connect") ++ [ConnAttempt.ok 7])
        (client_init 5 0)).sleeps.sum = 22200 ∧
    CONNECT_TIMEOUT < 22200 ∧
    ∀ k : Nat, (reconnect (List.replicate k (ConnAttempt.fail "connect"))
        (client_init 5 0)).done = false := by
  refine ⟨by decide, by decide, fun k => ?_⟩
  rw [reconnect_client _ _ rfl]
  exact (reconnect_go_all_fail k "connect" 0 _ (close_connection_connected _)).1

/-! ## Claim C5 — the backoff schedule -/

/-- **C5** (counterexample): the delay slept after the *first* failed
reconnect attempt is 200 ms, not the 100 ms starting value the claim
states (the code increments `attempt` before computing
`RECONNECT_DELAY * (1 << attempt)`). -/
theorem C5_counterexample :
    (reconnect [ConnAttempt.fail "connect", ConnAttempt.ok 7] (client_init 5 0)).sleeps
      = [200] ∧ (200 : Nat) ≠ 100 := by
  constructor <;> decide

/-- **C5** (amended): the delay after failed attempt `n` (`n = 1, 2, …`)
is `100·2^min(n,5)` ms — 200 ms after the first failure, doubling each
attempt up to a plateau of 3200 ms; the code's 5000 ms cap is never
reached. -/
theorem C5_amended_backoff (k : Nat) (m : String) (f : Int) (c : Conn)
    (hs : c.server = false) :
    (reconnect (List.replicate k (ConnAttempt.fail m) ++ [ConnAttempt.ok f]) c).sleeps
      = (List.range k).map (fun i => 100 * 2 ^ min (i + 1) 5) ∧
    (∀ n, 1 ≤ n → reconnect_delay n ≤ 3200) ∧
    (∀ n, 1 ≤ n → n < 5 → reconnect_delay (n + 1) = 2 * reconnect_delay n) := by
  refine ⟨?_, fun n _ => ?_, fun n h1 h5 => ?_⟩
  · rw [reconnect_client _ _ hs]
    show (reconnect_go _ 0 _).sleeps = _
    rw [reconnect_go_sleeps k m f 0 _ (close_connection_connected c)]
    exact List.map_congr_left fun i _ => by rw [reconnect_delay_eq]; norm_num
  · rw [reconnect_delay_eq]
    have hle : 2 ^ min n 5 ≤ 32 := by
      calc 2 ^ min n 5 ≤ 2 ^ 5 := Nat.pow_le_pow_right (by norm_num) (Nat.min_le_right n 5)
        _ = 32 := rfl
    omega
  · interval_cases n <;> decide

/-- **C5** witness: three failures then success sleeps 200, 400, 800 ms. -/
theorem C5_amended_backoff_witness :
    (reconnect (List.replicate 3 (ConnAttempt.fail "connect") ++ [ConnAttempt.ok 7])
        (client_init 5 0)).sleeps = [200, 400, 800] := by
  rw [(C5_amended_backoff 3 "connect" 7 (client_init 5 0) rfl).1]
  decide

/-! ## Claim C8 — reconnection discards the receive buffer -/

/-- **C8**: whenever an initiator's `reconnect` call completes (the
transition `Disconnected → Connecting → Connected`), the receive buffer
of the resulting connected state is empty — a partially framed message
buffered when the stream failed is discarded, never stitched across
connections. -/
theorem C8_reconnect_clears_buffer (attempts : List ConnAttempt) (c : Conn)
    (hs : c.server = false) (hd : (reconnect attempts c).done = true) :
    (reconnect attempts c).conn.recv_buffer = [] ∧
    (reconnect attempts c).conn.connected = true := by
  rw [reconnect_client _ _ hs] at hd ⊢
  exact reconnect_go_done attempts 0 _ (close_connection_connected c) hd

/-- **C8** witness: a client with a partial frame buffered reconnects
successfully and comes back with an empty buffer. -/
theorem C8_reconnect_clears_buffer_witness :
    (reconnect [ConnAttempt.fail "connect", ConnAttempt.ok 9]
        { client_init 5 0 with recv_buffer := [0, 0, 0, 200, 1, 2] }).conn.recv_buffer = [] :=
  (C8_reconnect_clears_buffer _ _ rfl (by decide)).1

/-! ## Claim C4 — the RTT smoothing law -/

/-- **C4**: for every measurement `R = timestamp_diff(now16, reply)`
processed by `update_rtt` (the sentinel guards passed): a negative `R`
leaves the estimator untouched; the first sample sets `SRTT := R` and
`RTTVAR := R/2`; every later sample sets
`RTTVAR := (1−1/4)·RTTVAR + (1/4)·|SRTT − R|` and then
`SRTT := (1−1/8)·SRTT + (1/8)·R`. -/
theorem C4_rtt_smoothing (now16 reply : Nat) (c : Conn)
    (h1 : reply ≠ UINT16_SENTINEL) (h2 : c.saved_timestamp_received_at ≠ UINT64_MAX) :
    (timestamp_diff now16 reply < 0 → update_rtt now16 reply c = c) ∧
    (0 ≤ timestamp_diff now16 reply → c.RTT_hit = false →
      (update_rtt now16 reply c).RTT_hit = true ∧
      (update_rtt now16 reply c).SRTT = timestamp_diff now16 reply ∧
      (update_rtt now16 reply c).RTTVAR = timestamp_diff now16 reply / 2) ∧
    (0 ≤ timestamp_diff now16 reply → c.RTT_hit = true →
      (update_rtt now16 reply c).RTTVAR
        = (1 - 1 / 4) * c.RTTVAR + (1 / 4) * |c.SRTT - timestamp_diff now16 reply| ∧
      (update_rtt now16 reply c).SRTT
        = (1 - 1 / 8) * c.SRTT + (1 / 8) * timestamp_diff now16 reply) := by
  unfold update_rtt
  rw [if_neg (by push_neg; exact ⟨h1, h2⟩)]
  unfold rtt_update
  refine ⟨fun hneg => ?_, fun hpos hhit => ?_, fun hpos hhit => ?_⟩
  · rw [if_pos hneg]
  · rw [if_neg (not_lt.mpr hpos), if_pos (by simp [hhit])]
    exact ⟨rfl, rfl, rfl⟩
  · rw [if_neg (not_lt.mpr hpos), if_neg (by simp [hhit])]
    exact ⟨rfl, rfl⟩

/-- **C4** witness: a negative measurement (echo numerically ahead of
the current 16-bit clock) is ignored; a first positive measurement of
20 ms installs `SRTT = 20`. -/
theorem C4_rtt_smoothing_witness :
    update_rtt 10 20 (client_init 5 0) = client_init 5 0 ∧
    (update_rtt 30 10 (client_init 5 0)).SRTT = 20 := by
  constructor
  · exact (C4_rtt_smoothing 10 20 (client_init 5 0) (by decide) (by decide)).1
      (by norm_num [timestamp_diff])
  · have h := ((C4_rtt_smoothing 30 10 (client_init 5 0) (by decide) (by decide)).2.1
      (by norm_num [timestamp_diff]) rfl).2.1
    rw [h]
    norm_num [timestamp_diff]

/-! ## Claim C6 — the timestamp-echo sentinel -/

/-- **C6** (code bug): evaluating `new_packet` on a freshly constructed
connection — client or server, before any inbound frame has been
recorded — the timestamp-echo field is `0` (the initial
`saved_timestamp`), never the `0xFFFF` "no echo" sentinel: the guard
`expected_receiver_seq != uint64_t( -1 )` is already true at
construction because the constructors initialize the field to `0`, so
the sentinel assigned at line 568 is always overwritten. -/
theorem C6_initial_echo_not_sentinel (now16 : Nat) (s : List Nat) (fd0 lfd : Int) (t : Nat) :
    (new_packet now16 s (client_init fd0 t)).timestamp_reply = 0 ∧
    (new_packet now16 s (server_init lfd t)).timestamp_reply = 0 ∧
    (0 : Nat) ≠ UINT16_SENTINEL := by
  have h : (0 : Nat) ≠ UINT64_MAX := by decide
  refine ⟨?_, ?_, by decide⟩ <;> simp [new_packet, client_init, server_init, h]

/-! ## Helper lemmas: frame parsing -/

/-- `be32` really is the inverse of `be32_of` on `uint32_t` values. -/
theorem be32_of_spec (n : Nat) (tail' : List Nat) (h : n < 4294967296) :
    be32 (be32_of n ++ tail') = n := by
  simp only [be32_of, List.cons_append, List.nil_append, be32]
  omega

/-- When a complete frame is buffered, how the parse step sees it:
the big-endian length decodes, the bounds hold, and the `substr` /
`erase` calls split off exactly the ciphertext. -/
theorem frame_buffer_facts (ct rest : List Nat) (hlen : ct.length ≤ MAX_MESSAGE_SIZE) :
    be32 (be32_of ct.length ++ ct ++ rest) = ct.length ∧
    LEN_BYTES ≤ (be32_of ct.length ++ ct ++ rest).length ∧
    LEN_BYTES + ct.length ≤ (be32_of ct.length ++ ct ++ rest).length ∧
    ((be32_of ct.length ++ ct ++ rest).drop LEN_BYTES).take ct.length = ct ∧
    (be32_of ct.length ++ ct ++ rest).drop (LEN_BYTES + ct.length) = rest := by
  have h32 : ct.length < 4294967296 := by
    have : MAX_MESSAGE_SIZE < 4294967296 := by decide
    omega
  refine ⟨?_, ?_, ?_, ?_, ?_⟩
  · rw [List.append_assoc]
    exact be32_of_spec _ _ h32
  · simp only [be32_of, LEN_BYTES, List.cons_append, List.nil_append, List.length_append,
      List.length_cons]
    omega
  · simp only [be32_of, LEN_BYTES, List.cons_append, List.nil_append, List.length_append,
      List.length_cons]
    omega
  · rw [List.append_assoc, show LEN_BYTES = (be32_of ct.length).length from rfl,
      List.drop_left, List.take_left]
  · rw [show LEN_BYTES + ct.length = (be32_of ct.length ++ ct).length by
      simp only [be32_of, LEN_BYTES, List.length_append, List.length_cons, List.length_nil],
      List.drop_left]

/-- Parse step on a buffer whose declared length exceeds the ceiling:
rejected before anything is sized from the length; the state — in
particular the buffer — is untouched. -/
theorem parse_step_too_large (dec : List Nat → Option Packet) (now now16 : Nat) (c : Conn)
    (h4 : LEN_BYTES ≤ c.recv_buffer.length) (hl : be32 c.recv_buffer > MAX_MESSAGE_SIZE) :
    parse_step dec now now16 c = some (.exn (.net "received message too large"), c) := by
  unfold parse_step
  rw [if_pos h4, if_pos hl]

/-- Parse step on a buffered complete frame whose ciphertext fails
authentication: the frame is dropped from the buffer (it was erased
before `decrypt` ran) and the crypto error is thrown; nothing else in
the state changes. -/
theorem parse_step_auth_fail (dec : List Nat → Option Packet) (now now16 : Nat) (c : Conn)
    (ct rest : List Nat)
    (hbuf : c.recv_buffer = be32_of ct.length ++ ct ++ rest)
    (hlen : ct.length ≤ MAX_MESSAGE_SIZE) (hdec : dec ct = none) :
    parse_step dec now now16 c = some (.exn .crypto, { c with recv_buffer := rest }) := by
  obtain ⟨h32, h4, hcomp, htake, hdrop⟩ := frame_buffer_facts ct rest hlen
  unfold parse_step
  rw [hbuf]
  rw [if_pos h4, if_neg (by rw [h32]; omega), if_pos (by rw [h32]; exact hcomp)]
  rw [h32, htake]
  simp only [hdec, hdrop]

/-- `update_rtt` only touches the RTT statistics; every field the
connection claims reason about is untouched. -/
theorem update_rtt_pres (now16 r : Nat) (c : Conn) :
    (update_rtt now16 r c).recv_buffer = c.recv_buffer ∧
    (update_rtt now16 r c).fd = c.fd ∧
    (update_rtt now16 r c).listen_fd = c.listen_fd ∧
    (update_rtt now16 r c).server = c.server ∧
    (update_rtt now16 r c).connected = c.connected := by
  unfold update_rtt rtt_update
  split
  · exact ⟨rfl, rfl, rfl, rfl, rfl⟩
  · split
    · exact ⟨rfl, rfl, rfl, rfl, rfl⟩
    · split <;> exact ⟨rfl, rfl, rfl, rfl, rfl⟩

/-- Parse step on a buffered complete frame that decrypts: the payload
is returned, the buffer advances past the frame, and the peer's
timestamp/sequence number are recorded. -/
theorem parse_step_msg (dec : List Nat → Option Packet) (now now16 : Nat) (c : Conn)
    (ct rest : List Nat) (p : Packet)
    (hbuf : c.recv_buffer = be32_of ct.length ++ ct ++ rest)
    (hlen : ct.length ≤ MAX_MESSAGE_SIZE) (hdec : dec ct = some p) :
    parse_step dec now now16 c
      = some (.msg p.payload,
          { update_rtt now16 p.timestamp_reply { c with recv_buffer := rest } with
            saved_timestamp := p.timestamp % 65536
            saved_timestamp_received_at := now
            expected_receiver_seq := p.seq
            last_heard := now }) := by
  obtain ⟨h32, h4, hcomp, htake, hdrop⟩ := frame_buffer_facts ct rest hlen
  unfold parse_step
  rw [hbuf]
  rw [if_pos h4, if_neg (by rw [h32]; omega), if_pos (by rw [h32]; exact hcomp)]
  rw [h32, htake]
  simp only [hdec, hdrop]

/-- When the parse step settles the call, the read loop returns it
without consuming any read outcome — whatever the oracle holds. -/
theorem recv_one_go_parse_some (dec : List Nat → Option Packet) (now now16 : Nat)
    (events : List ReadEvent) (c : Conn) (r : RecvOut × Conn)
    (h : parse_step dec now now16 c = some r) :
    recv_one_go dec now now16 events c = r := by
  cases events <;> simp [recv_one_go, h]

/-! ## Helper lemmas: fields the reconnect loop never touches -/

theorem reconnect_go_pres (attempts : List ConnAttempt) (a : Nat) (c : Conn) :
    (reconnect_go attempts a c).conn.send_error = c.send_error ∧
    (reconnect_go attempts a c).conn.server = c.server ∧
    (reconnect_go attempts a c).conn.listen_fd = c.listen_fd := by
  induction attempts generalizing a c with
  | nil => exact ⟨rfl, rfl, rfl⟩
  | cons x rest ih =>
    by_cases hc : c.connected = true
    · cases x <;>
        · simp only [reconnect_go]
          rw [if_pos hc]
          exact ⟨rfl, rfl, rfl⟩
    · rw [Bool.not_eq_true] at hc
      cases x with
      | ok f =>
        rw [reconnect_go_cons_ok _ rest a c hc]
        exact ⟨rfl, rfl, rfl⟩
      | fail m =>
        rw [reconnect_go_cons_fail m rest a c hc]
        exact ih (a + 1) _

theorem reconnect_pres (attempts : List ConnAttempt) (c : Conn) :
    (reconnect attempts c).conn.send_error = c.send_error ∧
    (reconnect attempts c).conn.server = c.server ∧
    (reconnect attempts c).conn.listen_fd = c.listen_fd := by
  by_cases hs : c.server = true
  · unfold reconnect
    rw [if_pos hs]
    exact ⟨rfl, rfl, rfl⟩
  · rw [Bool.not_eq_true] at hs
    rw [reconnect_client attempts c hs]
    have h := reconnect_go_pres attempts 0 (close_connection c).1
    refine ⟨?_, ?_, ?_⟩
    · show (reconnect_go _ 0 _).conn.send_error = _
      rw [h.1]
      unfold close_connection
      split <;> rfl
    · show (reconnect_go _ 0 _).conn.server = _
      rw [h.2.1, close_connection_server]
    · show (reconnect_go _ 0 _).conn.listen_fd = _
      rw [h.2.2, close_connection_listen_fd]

/-- What the `catch` handler of `send` guarantees regardless of the
reconnect outcome: the write count is passed through unchanged, the
call does not report success, and `send_error` holds the error text. -/
theorem send_catch_spec (m : String) (aC : List ConnAttempt) (wc : Nat)
    (closed0 : List Int) (c : Conn) :
    (send_catch m aC wc closed0 c).writeCalls = wc ∧
    (send_catch m aC wc closed0 c).out ≠ SendOut.ok ∧
    (send_catch m aC wc closed0 c).conn.send_error = m := by
  have hp := (reconnect_pres aC { c with send_error := m }).1
  simp only [send_catch]
  by_cases hs : c.server = true
  · rw [if_neg (by simp [hs])]
    exact ⟨rfl, by simp, rfl⟩
  · rw [Bool.not_eq_true] at hs
    rw [if_pos (by simp [hs])]
    by_cases hd : (reconnect aC { c with send_error := m }).done = true
    · rw [if_pos hd]
      exact ⟨rfl, by simp, hp⟩
    · rw [if_neg hd]
      exact ⟨rfl, by simp, hp⟩

/-! ## Claim C2 — the 1 MiB ciphertext ceiling -/

/-- **C2**: both directions enforce `MAX_MESSAGE_SIZE` before the
length is used.  Sending: when the ciphertext exceeds the ceiling,
`send` raises `"message too large"` with *zero* `write` calls issued —
before the size is converted to the 4-byte prefix.  Receiving: when the
buffered 4-byte prefix declares more than the ceiling, `recv_one`
throws `"received message too large"` with the state untouched and
*independently of the read oracle* — no allocation, copy or read is
sized from the declared length. -/
theorem C2_size_ceiling_enforced :
    (∀ (encryptFn : Packet → List Nat) (now16 : Nat) (w1 w2 : WriteRes)
        (aP aC : List ConnAttempt) (s : List Nat) (c : Conn),
      c.connected = true →
      (encryptFn (new_packet now16 s c)).length > MAX_MESSAGE_SIZE →
      (send encryptFn now16 w1 w2 aP aC s c).writeCalls = 0 ∧
      (send encryptFn now16 w1 w2 aP aC s c).out ≠ SendOut.ok ∧
      (send encryptFn now16 w1 w2 aP aC s c).conn.send_error = "message too large") ∧
    (∀ (dec : List Nat → Option Packet) (now now16 : Nat) (events : List ReadEvent)
        (c : Conn),
      0 ≤ c.fd →
      LEN_BYTES ≤ c.recv_buffer.length →
      be32 c.recv_buffer > MAX_MESSAGE_SIZE →
      recv_one dec now now16 events c
        = (.exn (.net "received message too large"), c)) := by
  constructor
  · intro encryptFn now16 w1 w2 aP aC s c hconn hbig
    unfold send
    rw [if_neg (by simp [hconn])]
    simp only [send_try]
    rw [if_pos hbig]
    exact send_catch_spec "message too large" aC 0 [] c
  · intro dec now now16 events c hfd h4 hl
    unfold recv_one
    rw [if_neg (by omega)]
    exact recv_one_go_parse_some dec now now16 events c _ (parse_step_too_large dec now now16 c h4 hl)

/-- **C2** witness: a 1 MiB + 1 ciphertext is rejected by `send` with
zero write calls, and a buffered prefix declaring 1 MiB + 1 makes
`recv_one` throw with the state untouched. -/
theorem C2_size_ceiling_enforced_witness :
    (send (fun _ => List.replicate 1048577 0) 0 .ok .ok [] [ConnAttempt.ok 7] []
        (client_init 5 0)).writeCalls = 0 ∧
    recv_one (fun _ => none) 0 0 []
        { client_init 5 0 with recv_buffer := [0, 16, 0, 1] }
      = (.exn (.net "received message too large"),
         { client_init 5 0 with recv_buffer := [0, 16, 0, 1] }) := by
  constructor
  · exact (C2_size_ceiling_enforced.1 (fun _ => List.replicate 1048577 0) 0 .ok .ok []
      [ConnAttempt.ok 7] [] (client_init 5 0) rfl
      (by rw [List.length_replicate]; decide)).1
  · exact C2_size_ceiling_enforced.2 (fun _ => none) 0 0 []
      { client_init 5 0 with recv_buffer := [0, 16, 0, 1] }
      (by decide) (by decide) (by decide)

/-! ## Claim C3 — per-message recovery from authentication failure -/

/-- **C3**: a buffered, well-framed message whose ciphertext fails
authentication is a recoverable per-message error: `recv` surfaces the
cipher layer's error (it passes the `NetworkException` catch untouched,
so the initiator does *not* reconnect), the connection state —
`connected`, `fd`, role — is unchanged, only the offending frame has
been consumed from the buffer, and a following `recv` parses the next
frame from the new buffer front. -/
theorem C3_auth_failure_recoverable
    (dec : List Nat → Option Packet) (now now16 : Nat) (events : List ReadEvent)
    (attempts : List ConnAttempt) (acc : AcceptOutcome)
    (ct rest : List Nat) (c : Conn)
    (hfd : 0 ≤ c.fd) (hconn : c.connected = true)
    (hbuf : c.recv_buffer = be32_of ct.length ++ ct ++ rest)
    (hlen : ct.length ≤ MAX_MESSAGE_SIZE) (hdec : dec ct = none) :
    recv dec now now16 acc events attempts c
      = (.exn .crypto, { c with recv_buffer := rest }) ∧
    (∀ (ct2 : List Nat) (p : Packet),
      rest = be32_of ct2.length ++ ct2 →
      ct2.length ≤ MAX_MESSAGE_SIZE → dec ct2 = some p →
      (recv dec now now16 acc events attempts { c with recv_buffer := rest }).1
        = .msg p.payload) := by
  have h1 : recv_one dec now now16 events c
      = (.exn .crypto, { c with recv_buffer := rest }) := by
    unfold recv_one
    rw [if_neg (by omega)]
    exact recv_one_go_parse_some dec now now16 events c _
      (parse_step_auth_fail dec now now16 c ct rest hbuf hlen hdec)
  constructor
  · unfold recv
    rw [if_neg (by simp [hconn]), if_neg (by simp [hconn])]
    simp only [recv_body, h1]
  · intro ct2 p hrest hlen2 hdec2
    have hbuf2 : ({ c with recv_buffer := rest } : Conn).recv_buffer
        = be32_of ct2.length ++ ct2 ++ [] := by
      show rest = _
      rw [hrest, List.append_nil]
    have h2 := recv_one_go_parse_some dec now now16 events { c with recv_buffer := rest } _
      (parse_step_msg dec now now16 { c with recv_buffer := rest } ct2 [] p hbuf2 hlen2 hdec2)
    have h3 : recv_one dec now now16 events { c with recv_buffer := rest }
        = recv_one_go dec now now16 events { c with recv_buffer := rest } := by
      unfold recv_one
      rw [if_neg (show ¬(c.fd < 0) by omega)]
    unfold recv
    rw [if_neg (by simp [hconn]), if_neg (by simp [hconn])]
    simp only [recv_body, h3, h2]

/-- A demo packet and decrypt oracle for the C3 witness: ciphertext
`[8]` authenticates and decodes to `demoPacket`; anything else fails
authentication. -/
def demoPacket : Packet :=
  { direction := .TO_CLIENT, seq := 3, timestamp := 5, timestamp_reply := 65535
    payload := [42] }

/-- See `demoPacket`. -/
def demoDec : List Nat → Option Packet :=
  fun l => if l = [8] then some demoPacket else none

/-- A connected client with two buffered frames: ciphertext `[9]`
(which fails authentication) followed by ciphertext `[8]`. -/
def demoC3 : Conn :=
  { client_init 6 0 with recv_buffer := [0, 0, 0, 1, 9, 0, 0, 0, 1, 8] }

/-- **C3** witness: the first frame fails authentication and is
dropped; the next `recv` returns the second frame's payload. -/
theorem C3_auth_failure_recoverable_witness :
    recv demoDec 0 0 .timeout [] [] demoC3
      = (.exn .crypto, { demoC3 with recv_buffer := [0, 0, 0, 1, 8] }) ∧
    (recv demoDec 0 0 .timeout [] [] { demoC3 with recv_buffer := [0, 0, 0, 1, 8] }).1
      = .msg [42] := by
  have h := C3_auth_failure_recoverable demoDec 0 0 [] [] .timeout [9] [0, 0, 0, 1, 8] demoC3
    (by decide) rfl rfl (by decide) rfl
  exact ⟨h.1, h.2 [8] demoPacket rfl (by decide) rfl⟩

/-! ## Helper lemmas: the receive-buffer bound -/

/-- A settled parse step never grows the buffer: the state either
stays put (rejection) or loses a frame prefix. -/
theorem parse_step_buffer_le (dec : List Nat → Option Packet) (now now16 : Nat)
    (c : Conn) (r : RecvOut × Conn) (h : parse_step dec now now16 c = some r) :
    r.2.recv_buffer.length ≤ c.recv_buffer.length := by
  simp only [parse_step] at h
  split at h
  · split at h
    · cases h
      exact le_refl _
    · split at h
      · split at h
        · cases h
          simp only [List.length_drop]
          omega
        · cases h
          show ((update_rtt now16 _ _ : Conn)).recv_buffer.length ≤ _
          rw [(update_rtt_pres _ _ _).1]
          simp only [List.length_drop]
          omega
      · cases h
  · cases h

/-- The read loop of `recv_one` preserves the buffer bound
`MAX_MESSAGE_SIZE + LEN_BYTES`: chunks are appended only behind the
overflow guard, and frame extraction only shrinks the buffer. -/
theorem recv_one_go_buffer_le (dec : List Nat → Option Packet) (now now16 : Nat)
    (events : List ReadEvent) (c : Conn)
    (hinv : c.recv_buffer.length ≤ MAX_MESSAGE_SIZE + LEN_BYTES) :
    (recv_one_go dec now now16 events c).2.recv_buffer.length
      ≤ MAX_MESSAGE_SIZE + LEN_BYTES := by
  induction events generalizing c with
  | nil =>
    cases hps : parse_step dec now now16 c with
    | none => simp only [recv_one_go, hps]; exact hinv
    | some r =>
      simp only [recv_one_go, hps]
      exact le_trans (parse_step_buffer_le dec now now16 c r hps) hinv
  | cons e rest ih =>
    cases hps : parse_step dec now now16 c with
    | some r =>
      simp only [recv_one_go, hps]
      exact le_trans (parse_step_buffer_le dec now now16 c r hps) hinv
    | none =>
      cases e with
      | data chunk =>
        simp only [recv_one_go, hps]
        split_ifs with h1 h2
        · exact hinv
        · exact hinv
        · refine ih { c with recv_buffer := c.recv_buffer ++ chunk } ?_
          simp only [List.length_append]
          omega
      | closed => simp only [recv_one_go, hps]; exact hinv
      | eintr => simp only [recv_one_go, hps]; exact ih c hinv
      | wouldblockReady => simp only [recv_one_go, hps]; exact ih c hinv
      | wouldblockTimeout => simp only [recv_one_go, hps]; exact hinv
      | wouldblockPollEintr => simp only [recv_one_go, hps]; exact ih c hinv
      | wouldblockPollErr => simp only [recv_one_go, hps]; exact hinv
      | readErr => simp only [recv_one_go, hps]; exact hinv

/-- `recv_one` preserves the buffer bound. -/
theorem recv_one_buffer_le (dec : List Nat → Option Packet) (now now16 : Nat)
    (events : List ReadEvent) (c : Conn)
    (hinv : c.recv_buffer.length ≤ MAX_MESSAGE_SIZE + LEN_BYTES) :
    (recv_one dec now now16 events c).2.recv_buffer.length
      ≤ MAX_MESSAGE_SIZE + LEN_BYTES := by
  unfold recv_one
  split
  · exact hinv
  · exact recv_one_go_buffer_le dec now now16 events c hinv

/-- The reconnect retry loop either clears the buffer or leaves it. -/
theorem reconnect_go_buffer (attempts : List ConnAttempt) (a : Nat) (c : Conn) :
    (reconnect_go attempts a c).conn.recv_buffer = [] ∨
    (reconnect_go attempts a c).conn.recv_buffer = c.recv_buffer := by
  induction attempts generalizing a c with
  | nil => exact Or.inr rfl
  | cons x rest ih =>
    by_cases hc : c.connected = true
    · cases x <;>
        · simp only [reconnect_go]
          rw [if_pos hc]
          exact Or.inr rfl
    · rw [Bool.not_eq_true] at hc
      cases x with
      | ok f =>
        rw [reconnect_go_cons_ok _ rest a c hc]
        exact Or.inl rfl
      | fail m =>
        rw [reconnect_go_cons_fail m rest a c hc]
        exact ih (a + 1) _

/-- `reconnect` either clears the buffer or leaves it. -/
theorem reconnect_buffer (attempts : List ConnAttempt) (c : Conn) :
    (reconnect attempts c).conn.recv_buffer = [] ∨
    (reconnect attempts c).conn.recv_buffer = c.recv_buffer := by
  by_cases hs : c.server = true
  · unfold reconnect
    rw [if_pos hs]
    exact Or.inr rfl
  · rw [Bool.not_eq_true] at hs
    rw [reconnect_client _ _ hs]
    rcases reconnect_go_buffer attempts 0 (close_connection c).1 with h | h
    · exact Or.inl h
    · rw [close_connection_recv_buffer] at h
      exact Or.inr h

/-- `reconnect` preserves the buffer bound. -/
theorem reconnect_buffer_le (attempts : List ConnAttempt) (c : Conn)
    (hinv : c.recv_buffer.length ≤ MAX_MESSAGE_SIZE + LEN_BYTES) :
    (reconnect attempts c).conn.recv_buffer.length ≤ MAX_MESSAGE_SIZE + LEN_BYTES := by
  rcases reconnect_buffer attempts c with h | h <;> rw [h]
  · decide
  · exact hinv

/-- If some attempt in the oracle succeeds, `reconnect` returns. -/
theorem reconnect_done_of_any_ok (attempts : List ConnAttempt) (c : Conn)
    (hok : attempts.any ConnAttempt.isOk = true) :
    (reconnect attempts c).done = true := by
  by_cases hs : c.server = true
  · unfold reconnect
    rw [if_pos hs]
  · rw [Bool.not_eq_true] at hs
    rw [reconnect_client _ _ hs]
    exact reconnect_go_some_ok _ 0 _ hok

/-- `accept_connection` does not touch the receive buffer. -/
theorem accept_connection_buffer (oc : AcceptOutcome) (c : Conn) :
    (accept_connection oc c).2.recv_buffer = c.recv_buffer := by
  simp only [accept_connection]
  split <;> rfl

/-- How `recv_body` settles for each `recv_one` outcome: successful,
empty and still-pending outcomes pass through. -/
theorem recv_body_of_pass (dec : List Nat → Option Packet) (now now16 : Nat)
    (events : List ReadEvent) (attempts : List ConnAttempt) (c c' : Conn) (o : RecvOut)
    (h : recv_one dec now now16 events c = (o, c'))
    (ho : o = .empty ∨ o = .pending ∨ o = .exn .crypto ∨ ∃ p, o = .msg p) :
    recv_body dec now now16 events attempts c = (o, c') := by
  unfold recv_body
  rw [h]
  rcases ho with rfl | rfl | rfl | ⟨p, rfl⟩ <;> rfl

/-- How `recv_body` settles when `recv_one` throws a
`NetworkException`: the client reconnects and reports empty (or is
still pending); the server marks itself disconnected and rethrows. -/
theorem recv_body_of_net (dec : List Nat → Option Packet) (now now16 : Nat)
    (events : List ReadEvent) (attempts : List ConnAttempt) (c c' : Conn) (m : String)
    (h : recv_one dec now now16 events c = (.exn (.net m), c')) :
    recv_body dec now now16 events attempts c
      = if ¬c'.server = true then
          (if (reconnect attempts c').done = true then (RecvOut.empty, (reconnect attempts c').conn)
           else (RecvOut.pending, (reconnect attempts c').conn))
        else (.exn (.net m), { c' with connected := false }) := by
  unfold recv_body
  rw [h]

/-- The `recv` catch wrapper preserves the buffer bound. -/
theorem recv_body_buffer_le (dec : List Nat → Option Packet) (now now16 : Nat)
    (events : List ReadEvent) (attempts : List ConnAttempt) (c : Conn)
    (hinv : c.recv_buffer.length ≤ MAX_MESSAGE_SIZE + LEN_BYTES) :
    (recv_body dec now now16 events attempts c).2.recv_buffer.length
      ≤ MAX_MESSAGE_SIZE + LEN_BYTES := by
  rcases hro : recv_one dec now now16 events c with ⟨o, c'⟩
  have hc' : c'.recv_buffer.length ≤ MAX_MESSAGE_SIZE + LEN_BYTES := by
    have h := recv_one_buffer_le dec now now16 events c hinv
    rw [hro] at h
    exact h
  cases o with
  | msg p =>
    rw [recv_body_of_pass dec now now16 events attempts c c' _ hro (by right; right; right; exact ⟨p, rfl⟩)]
    exact hc'
  | empty =>
    rw [recv_body_of_pass dec now now16 events attempts c c' _ hro (by left; rfl)]
    exact hc'
  | pending =>
    rw [recv_body_of_pass dec now now16 events attempts c c' _ hro (by right; left; rfl)]
    exact hc'
  | exn e =>
    cases e with
    | crypto =>
      rw [recv_body_of_pass dec now now16 events attempts c c' _ hro (by right; right; left; rfl)]
      exact hc'
    | net m =>
      rw [recv_body_of_net dec now now16 events attempts c c' m hro]
      split_ifs with h1 h2 <;>
        first
          | exact reconnect_buffer_le attempts c' hc'
          | exact hc'

/-- `recv` preserves the buffer bound on every path. -/
theorem recv_buffer_le (dec : List Nat → Option Packet) (now now16 : Nat)
    (acc : AcceptOutcome) (events : List ReadEvent) (attempts : List ConnAttempt)
    (c : Conn) (hinv : c.recv_buffer.length ≤ MAX_MESSAGE_SIZE + LEN_BYTES) :
    (recv dec now now16 acc events attempts c).2.recv_buffer.length
      ≤ MAX_MESSAGE_SIZE + LEN_BYTES := by
  unfold recv
  split
  · split
    · rename_i e c' heq
      have hb : c'.recv_buffer = c.recv_buffer := by
        have h := accept_connection_buffer acc c
        rw [heq] at h
        exact h
      show c'.recv_buffer.length ≤ _
      rw [hb]
      exact hinv
    · rename_i u c' heq
      have hb : c'.recv_buffer = c.recv_buffer := by
        have h := accept_connection_buffer acc c
        rw [heq] at h
        exact h
      split
      · show c'.recv_buffer.length ≤ _
        rw [hb]
        exact hinv
      · exact recv_body_buffer_le dec now now16 events attempts c' (by rw [hb]; exact hinv)
  · split
    · exact hinv
    · exact recv_body_buffer_le dec now now16 events attempts c hinv

/-- `send_catch` preserves the buffer bound. -/
theorem send_catch_buffer_le (m : String) (aC : List ConnAttempt) (wc : Nat)
    (closed0 : List Int) (c : Conn)
    (hinv : c.recv_buffer.length ≤ MAX_MESSAGE_SIZE + LEN_BYTES) :
    (send_catch m aC wc closed0 c).conn.recv_buffer.length
      ≤ MAX_MESSAGE_SIZE + LEN_BYTES := by
  simp only [send_catch]
  split_ifs with h1 h2 <;>
    first
      | exact reconnect_buffer_le aC { c with send_error := m } hinv
      | exact hinv

/-- `send_try` preserves the buffer bound. -/
theorem send_try_buffer_le (encryptFn : Packet → List Nat) (now16 : Nat)
    (w1 w2 : WriteRes) (aC : List ConnAttempt) (s : List Nat) (closed0 : List Int)
    (c : Conn) (hinv : c.recv_buffer.length ≤ MAX_MESSAGE_SIZE + LEN_BYTES) :
    (send_try encryptFn now16 w1 w2 aC s closed0 c).conn.recv_buffer.length
      ≤ MAX_MESSAGE_SIZE + LEN_BYTES := by
  simp only [send_try]
  split
  · exact send_catch_buffer_le _ aC 0 closed0 c hinv
  · cases w1 with
    | fail m => exact send_catch_buffer_le m aC 1 closed0 c hinv
    | ok =>
      cases w2 with
      | fail m => exact send_catch_buffer_le m aC 2 closed0 c hinv
      | ok => exact hinv

/-- `send` preserves the buffer bound on every path. -/
theorem send_buffer_le (encryptFn : Packet → List Nat) (now16 : Nat)
    (w1 w2 : WriteRes) (aP aC : List ConnAttempt) (s : List Nat) (c : Conn)
    (hinv : c.recv_buffer.length ≤ MAX_MESSAGE_SIZE + LEN_BYTES) :
    (send encryptFn now16 w1 w2 aP aC s c).conn.recv_buffer.length
      ≤ MAX_MESSAGE_SIZE + LEN_BYTES := by
  simp only [send]
  split
  · split
    · exact hinv
    · split
      · exact reconnect_buffer_le aP c hinv
      · exact send_try_buffer_le encryptFn now16 w1 w2 aC s _ _
          (reconnect_buffer_le aP c hinv)
  · exact send_try_buffer_le encryptFn now16 w1 w2 aC s _ _ hinv

/-! ## Claim C7 — the receive-buffer invariant -/

/-- **C7**: across every `send`/`recv` call and every error path the
receive buffer never exceeds `MAX_MESSAGE_SIZE + LEN_BYTES` bytes; an
append that would exceed the bound is refused — the chunk is not
appended, the state is untouched, and the refusal is the
`NetworkException` "receive buffer overflow" — and for the initiator
that exception is handled at the `recv` boundary by reconnecting (a
connection-level failure, not a process abort). -/
theorem C7_recv_buffer_invariant :
    (∀ (dec : List Nat → Option Packet) (now now16 : Nat) (acc : AcceptOutcome)
        (events : List ReadEvent) (attempts : List ConnAttempt) (c : Conn),
      c.recv_buffer.length ≤ MAX_MESSAGE_SIZE + LEN_BYTES →
      (recv dec now now16 acc events attempts c).2.recv_buffer.length
        ≤ MAX_MESSAGE_SIZE + LEN_BYTES) ∧
    (∀ (encryptFn : Packet → List Nat) (now16 : Nat) (w1 w2 : WriteRes)
        (aP aC : List ConnAttempt) (s : List Nat) (c : Conn),
      c.recv_buffer.length ≤ MAX_MESSAGE_SIZE + LEN_BYTES →
      (send encryptFn now16 w1 w2 aP aC s c).conn.recv_buffer.length
        ≤ MAX_MESSAGE_SIZE + LEN_BYTES) ∧
    (∀ (dec : List Nat → Option Packet) (now now16 : Nat) (rest : List ReadEvent)
        (c : Conn) (chunk : List Nat),
      0 ≤ c.fd →
      parse_step dec now now16 c = none →
      chunk ≠ [] →
      c.recv_buffer.length + chunk.length > MAX_MESSAGE_SIZE + LEN_BYTES →
      recv_one dec now now16 (.data chunk :: rest) c
        = (.exn (.net "receive buffer overflow - incomplete message too large"), c)) ∧
    (∀ (dec : List Nat → Option Packet) (now now16 : Nat) (acc : AcceptOutcome)
        (rest : List ReadEvent) (attempts : List ConnAttempt) (c : Conn)
        (chunk : List Nat),
      0 ≤ c.fd → c.connected = true → c.server = false →
      parse_step dec now now16 c = none →
      chunk ≠ [] →
      c.recv_buffer.length + chunk.length > MAX_MESSAGE_SIZE + LEN_BYTES →
      attempts.any ConnAttempt.isOk = true →
      (recv dec now now16 acc (.data chunk :: rest) attempts c).1 = .empty) := by
  have hrefuse : ∀ (dec : List Nat → Option Packet) (now now16 : Nat)
      (rest : List ReadEvent) (c : Conn) (chunk : List Nat),
      0 ≤ c.fd →
      parse_step dec now now16 c = none →
      chunk ≠ [] →
      c.recv_buffer.length + chunk.length > MAX_MESSAGE_SIZE + LEN_BYTES →
      recv_one dec now now16 (.data chunk :: rest) c
        = (.exn (.net "receive buffer overflow - incomplete message too large"), c) := by
    intro dec now now16 rest c chunk hfd hps hchunk hover
    unfold recv_one
    rw [if_neg (by omega)]
    simp only [recv_one_go, hps]
    rw [if_neg (by simpa using hchunk), if_pos hover]
  refine ⟨fun dec now now16 acc events attempts c h =>
      recv_buffer_le dec now now16 acc events attempts c h,
    fun encryptFn now16 w1 w2 aP aC s c h =>
      send_buffer_le encryptFn now16 w1 w2 aP aC s c h,
    hrefuse,
    fun dec now now16 acc rest attempts c chunk hfd hconn hs hps hchunk hover hok => ?_⟩
  have h1 := hrefuse dec now now16 rest c chunk hfd hps hchunk hover
  unfold recv
  rw [if_neg (by simp [hconn]), if_neg (by simp [hconn])]
  rw [recv_body_of_net dec now now16 (.data chunk :: rest) attempts c c _ h1]
  rw [if_pos (by simp [hs]), if_pos (reconnect_done_of_any_ok attempts c hok)]

/-- **C7** witness: applying the invariant and the refusal at concrete
inputs — the bound holds after a `recv` on a connected client, and a
4-byte buffer plus a chunk declared to overflow is refused. -/
theorem C7_recv_buffer_invariant_witness :
    (recv (fun _ => none) 0 0 .timeout [.wouldblockTimeout] [] (client_init 5 0)
      ).2.recv_buffer.length ≤ MAX_MESSAGE_SIZE + LEN_BYTES ∧
    recv_one (fun _ => none) 0 0 [ReadEvent.data (List.replicate 1048577 1)]
        { client_init 5 0 with recv_buffer := [0, 0, 16, 0] }
      = (.exn (.net "receive buffer overflow - incomplete message too large"),
         { client_init 5 0 with recv_buffer := [0, 0, 16, 0] }) := by
  constructor
  · exact C7_recv_buffer_invariant.1 (fun _ => none) 0 0 .timeout [.wouldblockTimeout] []
      (client_init 5 0) (by decide)
  · refine C7_recv_buffer_invariant.2.2.1 (fun _ => none) 0 0 []
      { client_init 5 0 with recv_buffer := [0, 0, 16, 0] }
      (List.replicate 1048577 1) (by decide) (by decide) ?_ ?_
    · intro h
      have hlen := congrArg List.length h
      rw [List.length_replicate] at hlen
      exact absurd hlen (by decide)
    · rw [List.length_replicate]
      decide

/-! ## Helper lemmas: fields `recv` never changes -/

/-- A settled parse step never touches the descriptors, the role or
the connectedness flag. -/
theorem parse_step_frame (dec : List Nat → Option Packet) (now now16 : Nat)
    (c : Conn) (r : RecvOut × Conn) (h : parse_step dec now now16 c = some r) :
    r.2.fd = c.fd ∧ r.2.listen_fd = c.listen_fd ∧ r.2.server = c.server ∧
    r.2.connected = c.connected := by
  simp only [parse_step] at h
  split at h
  · split at h
    · cases h
      exact ⟨rfl, rfl, rfl, rfl⟩
    · split at h
      · split at h
        · cases h
          exact ⟨rfl, rfl, rfl, rfl⟩
        · cases h
          refine ⟨?_, ?_, ?_, ?_⟩
          · show (update_rtt now16 _ _ : Conn).fd = c.fd
            rw [(update_rtt_pres _ _ _).2.1]
          · show (update_rtt now16 _ _ : Conn).listen_fd = c.listen_fd
            rw [(update_rtt_pres _ _ _).2.2.1]
          · show (update_rtt now16 _ _ : Conn).server = c.server
            rw [(update_rtt_pres _ _ _).2.2.2.1]
          · show (update_rtt now16 _ _ : Conn).connected = c.connected
            rw [(update_rtt_pres _ _ _).2.2.2.2]
      · cases h
  · cases h

/-- The read loop of `recv_one` never touches the descriptors, the
role or the connectedness flag. -/
theorem recv_one_go_frame (dec : List Nat → Option Packet) (now now16 : Nat)
    (events : List ReadEvent) (c : Conn) :
    (recv_one_go dec now now16 events c).2.fd = c.fd ∧
    (recv_one_go dec now now16 events c).2.listen_fd = c.listen_fd ∧
    (recv_one_go dec now now16 events c).2.server = c.server ∧
    (recv_one_go dec now now16 events c).2.connected = c.connected := by
  induction events generalizing c with
  | nil =>
    cases hps : parse_step dec now now16 c with
    | none => simp [recv_one_go, hps]
    | some r => simp only [recv_one_go, hps]; exact parse_step_frame dec now now16 c r hps
  | cons e rest ih =>
    cases hps : parse_step dec now now16 c with
    | some r => simp only [recv_one_go, hps]; exact parse_step_frame dec now now16 c r hps
    | none =>
      cases e with
      | data chunk =>
        simp only [recv_one_go, hps]
        split_ifs
        · simp
        · simp
        · exact ih { c with recv_buffer := c.recv_buffer ++ chunk }
      | closed => simp [recv_one_go, hps]
      | eintr => simp only [recv_one_go, hps]; exact ih c
      | wouldblockReady => simp only [recv_one_go, hps]; exact ih c
      | wouldblockTimeout => simp [recv_one_go, hps]
      | wouldblockPollEintr => simp only [recv_one_go, hps]; exact ih c
      | wouldblockPollErr => simp [recv_one_go, hps]
      | readErr => simp [recv_one_go, hps]

/-- `recv_one` never touches the descriptors, role or connectedness. -/
theorem recv_one_frame (dec : List Nat → Option Packet) (now now16 : Nat)
    (events : List ReadEvent) (c : Conn) :
    (recv_one dec now now16 events c).2.fd = c.fd ∧
    (recv_one dec now now16 events c).2.listen_fd = c.listen_fd ∧
    (recv_one dec now now16 events c).2.server = c.server ∧
    (recv_one dec now now16 events c).2.connected = c.connected := by
  unfold recv_one
  split
  · exact ⟨rfl, rfl, rfl, rfl⟩
  · exact recv_one_go_frame dec now now16 events c

/-- With the listening handle closed, the accept path is inert:
`poll(2)` ignores the negative descriptor and can only time out. -/
theorem accept_connection_no_listen (oc : AcceptOutcome) (c : Conn)
    (h : c.listen_fd = -1) :
    accept_connection oc c = (.ok (), c) := by
  simp only [accept_connection]
  rw [if_pos (by rw [h]; decide)]

/-- `recv_body` preserves the listening-handle field. -/
theorem recv_body_listen (dec : List Nat → Option Packet) (now now16 : Nat)
    (events : List ReadEvent) (attempts : List ConnAttempt) (c : Conn) :
    (recv_body dec now now16 events attempts c).2.listen_fd = c.listen_fd := by
  rcases hro : recv_one dec now now16 events c with ⟨o, c'⟩
  have hl : c'.listen_fd = c.listen_fd := by
    have h := (recv_one_frame dec now now16 events c).2.1
    rw [hro] at h
    exact h
  cases o with
  | msg p =>
    rw [recv_body_of_pass dec now now16 events attempts c c' _ hro
      (by right; right; right; exact ⟨p, rfl⟩)]
    exact hl
  | empty =>
    rw [recv_body_of_pass dec now now16 events attempts c c' _ hro (by left; rfl)]
    exact hl
  | pending =>
    rw [recv_body_of_pass dec now now16 events attempts c c' _ hro (by right; left; rfl)]
    exact hl
  | exn e =>
    cases e with
    | crypto =>
      rw [recv_body_of_pass dec now now16 events attempts c c' _ hro
        (by right; right; left; rfl)]
      exact hl
    | net m =>
      rw [recv_body_of_net dec now now16 events attempts c c' m hro]
      split_ifs <;>
        first
          | rw [(reconnect_pres attempts c').2.2]; exact hl
          | exact hl

/-- When an unconnected listener's listening handle is already closed,
`recv` makes no accept attempt and returns empty with the state
untouched. -/
theorem recv_no_listen (dec : List Nat → Option Packet) (now now16 : Nat)
    (acc : AcceptOutcome) (events : List ReadEvent) (attempts : List ConnAttempt)
    (c : Conn) (hserver : c.server = true) (hconn : c.connected = false)
    (h : c.listen_fd = -1) :
    recv dec now now16 acc events attempts c = (.empty, c) := by
  unfold recv
  rw [if_pos (by simp [hserver, hconn]), accept_connection_no_listen acc c h]
  show (if ¬c.connected = true then (RecvOut.empty, c)
        else recv_body dec now now16 events attempts c) = (RecvOut.empty, c)
  rw [if_pos (by simp [hconn])]

/-- `recv` never resurrects a closed listening handle. -/
theorem recv_listen_pres (dec : List Nat → Option Packet) (now now16 : Nat)
    (acc : AcceptOutcome) (events : List ReadEvent) (attempts : List ConnAttempt)
    (c : Conn) (h : c.listen_fd = -1) :
    (recv dec now now16 acc events attempts c).2.listen_fd = -1 := by
  by_cases hsc : c.server = true ∧ ¬c.connected = true
  · rw [recv_no_listen dec now now16 acc events attempts c hsc.1
      (by simpa using hsc.2) h]
    exact h
  · unfold recv
    rw [if_neg hsc]
    split
    · exact h
    · rw [recv_body_listen]
      exact h

/-- `send_catch` preserves the listening-handle field. -/
theorem send_catch_listen (m : String) (aC : List ConnAttempt) (wc : Nat)
    (closed0 : List Int) (c : Conn) :
    (send_catch m aC wc closed0 c).conn.listen_fd = c.listen_fd := by
  simp only [send_catch]
  split_ifs <;>
    first
      | rw [(reconnect_pres aC { c with send_error := m }).2.2]
      | rfl

/-- `send_try` preserves the listening-handle field. -/
theorem send_try_listen (encryptFn : Packet → List Nat) (now16 : Nat)
    (w1 w2 : WriteRes) (aC : List ConnAttempt) (s : List Nat) (closed0 : List Int)
    (c : Conn) :
    (send_try encryptFn now16 w1 w2 aC s closed0 c).conn.listen_fd = c.listen_fd := by
  simp only [send_try]
  split
  · exact send_catch_listen _ aC 0 closed0 c
  · cases w1 with
    | fail m => exact send_catch_listen m aC 1 closed0 c
    | ok =>
      cases w2 with
      | fail m => exact send_catch_listen m aC 2 closed0 c
      | ok => rfl

/-- `send` never resurrects a closed listening handle. -/
theorem send_listen_pres (encryptFn : Packet → List Nat) (now16 : Nat)
    (w1 w2 : WriteRes) (aP aC : List ConnAttempt) (s : List Nat) (c : Conn)
    (h : c.listen_fd = -1) :
    (send encryptFn now16 w1 w2 aP aC s c).conn.listen_fd = -1 := by
  simp only [send]
  split
  · split
    · exact h
    · split
      · rw [(reconnect_pres aP c).2.2]
        exact h
      · rw [send_try_listen, (reconnect_pres aP c).2.2]
        exact h
  · rw [send_try_listen]
    exact h

/-- `fds` with the listening handle closed reports at most the stream
descriptor, never a listening one. -/
theorem fds_no_listen (c : Conn) (h : c.listen_fd = -1) :
    fds c = (if 0 ≤ c.fd then [c.fd] else []) := by
  unfold fds
  rw [if_neg (by rw [h]; intro hx; exact absurd hx.2.2 (by decide))]

/-! ## Claim C9 — a listener accepts exactly one peer -/

/-- The C9 listener trace, step 0: a fresh server listening on
descriptor 3. -/
def demoS0 : Conn := server_init 3 0

/-- Step 1: `recv` accepts the single peer on descriptor 5 (closing the
listening handle at once) and then times out waiting for data. -/
def demoS1 : Conn := (recv (fun _ => none) 0 0 (.acceptOk 5) [.wouldblockTimeout] [] demoS0).2

/-- Step 2: the peer closes the stream; the `recv` observing it threw
`"read: connection closed"` and marked the listener disconnected. -/
def demoS2 : Conn := (recv (fun _ => none) 0 0 .timeout [.closed] [] demoS1).2

/-- **C9** (counterexample): after the single peer is lost, *later*
`recv` calls do not return the terminal error as the claim states: the
very next `recv` on the dead listener returns *empty* (the accept path
is inert — `poll` on the closed listening descriptor can only time
out), refuting "every later recv call returns the terminal error". -/
theorem C9_counterexample :
    demoS2.server = true ∧ demoS2.connected = false ∧ demoS2.listen_fd = -1 ∧
    (recv (fun _ => none) 0 0 .timeout [] [] demoS2).1 = RecvOut.empty ∧
    ¬∃ e : ConnErr, (recv (fun _ => none) 0 0 .timeout [] [] demoS2).1 = RecvOut.exn e := by
  refine ⟨rfl, rfl, rfl, rfl, ?_⟩
  rintro ⟨e, he⟩
  rw [show (recv (fun _ => none) 0 0 .timeout [] [] demoS2).1 = RecvOut.empty from rfl] at he
  cases he

/-- **C9** (amended): a listener accepts at most one peer — accepting
closes the listening handle (`listen_fd := -1`) and neither `recv` nor
`send` ever reopens it; the `recv` call that observes the stream error
surfaces it and marks the listener disconnected; *afterwards* `recv`
returns empty without re-accepting (the state does not change, so no
second peer is ever installed) and `fds` reports at most the dead
stream descriptor, never a listening one. -/
theorem C9_single_peer_amended :
    (∀ (dec : List Nat → Option Packet) (now now16 : Nat) (acc : AcceptOutcome)
        (events : List ReadEvent) (attempts : List ConnAttempt) (c : Conn),
      c.listen_fd = -1 →
      (recv dec now now16 acc events attempts c).2.listen_fd = -1) ∧
    (∀ (encryptFn : Packet → List Nat) (now16 : Nat) (w1 w2 : WriteRes)
        (aP aC : List ConnAttempt) (s : List Nat) (c : Conn),
      c.listen_fd = -1 →
      (send encryptFn now16 w1 w2 aP aC s c).conn.listen_fd = -1) ∧
    (∀ (dec : List Nat → Option Packet) (now now16 : Nat) (acc : AcceptOutcome)
        (events : List ReadEvent) (attempts : List ConnAttempt) (c c' : Conn)
        (m : String),
      c.server = true → c.connected = true →
      recv_one dec now now16 events c = (.exn (.net m), c') →
      recv dec now now16 acc events attempts c
        = (.exn (.net m), { c' with connected := false })) ∧
    (∀ (dec : List Nat → Option Packet) (now now16 : Nat) (acc : AcceptOutcome)
        (events : List ReadEvent) (attempts : List ConnAttempt) (c : Conn),
      c.server = true → c.connected = false → c.listen_fd = -1 →
      recv dec now now16 acc events attempts c = (.empty, c) ∧
      fds c = (if 0 ≤ c.fd then [c.fd] else [])) := by
  refine ⟨recv_listen_pres, send_listen_pres, ?_, ?_⟩
  · intro dec now now16 acc events attempts c c' m hserver hconn hro
    have hs' : c'.server = true := by
      have h := (recv_one_frame dec now now16 events c).2.2.1
      rw [hro] at h
      rw [h]
      exact hserver
    unfold recv
    rw [if_neg (by simp [hconn]), if_neg (by simp [hconn])]
    rw [recv_body_of_net dec now now16 events attempts c c' m hro]
    rw [if_neg (by simp [hs'])]
  · intro dec now now16 acc events attempts c hserver hconn hl
    exact ⟨recv_no_listen dec now now16 acc events attempts c hserver hconn hl,
      fds_no_listen c hl⟩

/-- **C9** witness: the amended behavior evaluated on the concrete
trace — the dead listener's `recv` returns empty with the state
unchanged, and `fds` reports only the dead stream descriptor 5. -/
theorem C9_single_peer_amended_witness :
    recv (fun _ => none) 1 1 .timeout [] [] demoS2 = (.empty, demoS2) ∧
    fds demoS2 = [5] := by
  have h := C9_single_peer_amended.2.2.2 (fun _ => none) 1 1 .timeout [] [] demoS2
    rfl rfl rfl
  refine ⟨h.1, ?_⟩
  rw [h.2]
  rfl

/-! ## Claim C10 — the send exception path tears down and reconnects -/

/-- A client's `reconnect` that completes: buffer cleared, connected,
and the call returned. -/
theorem reconnect_client_done_spec (attempts : List ConnAttempt) (c : Conn)
    (hs : c.server = false) (hok : attempts.any ConnAttempt.isOk = true) :
    (reconnect attempts c).conn.recv_buffer = [] ∧
    (reconnect attempts c).conn.connected = true ∧
    (reconnect attempts c).done = true := by
  have hd : (reconnect attempts c).done = true := reconnect_done_of_any_ok attempts c hok
  rw [reconnect_client attempts c hs] at hd ⊢
  have h := reconnect_go_done attempts 0 _ (close_connection_connected c) hd
  exact ⟨h.1, h.2, hd⟩

/-- A client's `reconnect` closes exactly the current stream handle. -/
theorem reconnect_closed_eq (attempts : List ConnAttempt) (c : Conn)
    (hs : c.server = false) (hfd : 0 ≤ c.fd) :
    (reconnect attempts c).closed = [c.fd] := by
  rw [reconnect_client attempts c hs]
  exact close_connection_closed c hfd

/-- What the `catch` handler of `send` does for a connected client with
an eventually-successful reconnect oracle: records the error text,
closes the current socket, runs the reconnection to completion (ending
connected with an empty receive buffer), and still propagates the
exception. -/
theorem send_catch_client_spec (m : String) (aC : List ConnAttempt)
    (wc : Nat) (closed0 : List Int) (c : Conn)
    (hs : c.server = false) (hfd : 0 ≤ c.fd)
    (hok : aC.any ConnAttempt.isOk = true) :
    (send_catch m aC wc closed0 c).out = .exn (.net m) ∧
    (send_catch m aC wc closed0 c).conn.send_error = m ∧
    (send_catch m aC wc closed0 c).conn.connected = true ∧
    (send_catch m aC wc closed0 c).conn.recv_buffer = [] ∧
    c.fd ∈ (send_catch m aC wc closed0 c).closed := by
  have hspec := reconnect_client_done_spec aC { c with send_error := m } hs hok
  have hperr := (reconnect_pres aC { c with send_error := m }).1
  have hclosed := reconnect_closed_eq aC { c with send_error := m } hs hfd
  simp only [send_catch]
  rw [if_pos (by simp [hs]), if_pos hspec.2.2]
  refine ⟨rfl, hperr, hspec.2.1, hspec.1, ?_⟩
  rw [hclosed]
  simp

/-- **C10**: for a connected initiator, every exception raised inside
`send`'s try body — the `"message too large"` rejection (raised before
any write to the still-healthy connection) as well as either
`write_fully` failure — sets `send_error` to the exception text, closes
the current socket, and runs the reconnection procedure to completion
(the final state is connected again, on a fresh socket, with an empty
receive buffer) before the exception propagates to the caller: the
connection state is not left unchanged. -/
theorem C10_send_exception_reconnects
    (encryptFn : Packet → List Nat) (now16 : Nat) (w1 w2 : WriteRes)
    (aP aC : List ConnAttempt) (s : List Nat) (c : Conn)
    (hs : c.server = false) (hconn : c.connected = true) (hfd : 0 ≤ c.fd)
    (hok : aC.any ConnAttempt.isOk = true) :
    ((encryptFn (new_packet now16 s c)).length > MAX_MESSAGE_SIZE →
      (send encryptFn now16 w1 w2 aP aC s c).out = .exn (.net "message too large") ∧
      (send encryptFn now16 w1 w2 aP aC s c).conn.send_error = "message too large" ∧
      (send encryptFn now16 w1 w2 aP aC s c).conn.connected = true ∧
      (send encryptFn now16 w1 w2 aP aC s c).conn.recv_buffer = [] ∧
      c.fd ∈ (send encryptFn now16 w1 w2 aP aC s c).closed ∧
      (send encryptFn now16 w1 w2 aP aC s c).writeCalls = 0) ∧
    (∀ m : String, (encryptFn (new_packet now16 s c)).length ≤ MAX_MESSAGE_SIZE →
      w1 = .fail m →
      (send encryptFn now16 w1 w2 aP aC s c).out = .exn (.net m) ∧
      (send encryptFn now16 w1 w2 aP aC s c).conn.send_error = m ∧
      (send encryptFn now16 w1 w2 aP aC s c).conn.connected = true ∧
      (send encryptFn now16 w1 w2 aP aC s c).conn.recv_buffer = [] ∧
      c.fd ∈ (send encryptFn now16 w1 w2 aP aC s c).closed) ∧
    (∀ m : String, (encryptFn (new_packet now16 s c)).length ≤ MAX_MESSAGE_SIZE →
      w1 = .ok → w2 = .fail m →
      (send encryptFn now16 w1 w2 aP aC s c).out = .exn (.net m) ∧
      (send encryptFn now16 w1 w2 aP aC s c).conn.send_error = m ∧
      (send encryptFn now16 w1 w2 aP aC s c).conn.connected = true ∧
      (send encryptFn now16 w1 w2 aP aC s c).conn.recv_buffer = [] ∧
      c.fd ∈ (send encryptFn now16 w1 w2 aP aC s c).closed) := by
  have hsend : send encryptFn now16 w1 w2 aP aC s c
      = send_try encryptFn now16 w1 w2 aC s [] c := by
    simp only [send]
    rw [if_neg (by simp [hconn])]
  refine ⟨fun hbig => ?_, fun m hle hw1 => ?_, fun m hle hw1 hw2 => ?_⟩
  · rw [hsend]
    simp only [send_try]
    rw [if_pos hbig]
    have h := send_catch_client_spec "message too large" aC 0 [] c hs hfd hok
    have hwc := (send_catch_spec "message too large" aC 0 [] c).1
    exact ⟨h.1, h.2.1, h.2.2.1, h.2.2.2.1, h.2.2.2.2, hwc⟩
  · rw [hsend]
    simp only [send_try]
    rw [if_neg (by omega), hw1]
    exact (send_catch_client_spec m aC 1 [] c hs hfd hok).imp id id
  · rw [hsend]
    simp only [send_try]
    rw [if_neg (by omega), hw1, hw2]
    exact (send_catch_client_spec m aC 2 [] c hs hfd hok).imp id id

/-- **C10** witness: a connected client sending an oversize message —
the error is recorded, the old socket (5) is closed, the state comes
back connected on the fresh socket, and the exception propagates. -/
theorem C10_send_exception_reconnects_witness :
    (send (fun _ => List.replicate 1048577 0) 0 .ok .ok [] [ConnAttempt.ok 9] []
        (client_init 5 0)).out = .exn (.net "message too large") ∧
    (send (fun _ => List.replicate 1048577 0) 0 .ok .ok [] [ConnAttempt.ok 9] []
        (client_init 5 0)).conn.connected = true ∧
    (5 : Int) ∈ (send (fun _ => List.replicate 1048577 0) 0 .ok .ok [] [ConnAttempt.ok 9] []
        (client_init 5 0)).closed := by
  have h := (C10_send_exception_reconnects (fun _ => List.replicate 1048577 0) 0 .ok .ok
    [] [ConnAttempt.ok 9] [] (client_init 5 0) rfl rfl (by decide) (by decide)).1
    (by rw [List.length_replicate]; decide)
  exact ⟨h.1, h.2.2.1, h.2.2.2.2.1⟩

end TCP
